import Mathlib

/-!
Shallow embedding of conduit's push-notification dispatch
(`src/service/pusher/mod.rs`) and relation tracking
(`src/service/rooms/pdu_metadata/mod.rs`).

External collaborators (storage, the ruma push-rule evaluator, the HTTP
client, display-name lookup, the short-event-id allocator, JSON
serialization) are modelled as explicit parameters / environment records.
Network effects are made observable as a trace: every modelled entry point
returns the list of gateway requests it issued alongside its
success-or-error result.
-/

set_option autoImplicit false

namespace Conduit

/-- Errors of `crate::Error` relevant to the pusher and relation code:
`Error::bad_database(msg)`, `Error::BadServerResponse(msg)`, and the
conversion of a `reqwest` transport error (`e.into()`). -/
inductive PushError where
  | badDatabase (msg : String)
  | badServerResponse (msg : String)
  | transport (msg : String)
  deriving DecidableEq, Repr

/-- `ruma::push::Tweak`: a notification presentation hint. -/
inductive Tweak where
  | sound (name : String)
  | highlight (value : Bool)
  | custom (name : String) (value : String)
  deriving DecidableEq, Repr

/-- `ruma::push::Action`: the four action kinds a push rule may yield. -/
inductive Action where
  | notify
  | dontNotify
  | coalesce
  | setTweak (t : Tweak)
  deriving DecidableEq, Repr

/-- `ruma::push::PushFormat`. -/
inductive PushFormat where
  | eventIdOnly
  | fullEvent
  deriving DecidableEq, Repr

/-- `ruma` HTTP pusher descriptor: url, optional format, optional default
payload (raw JSON modelled as a string). -/
structure HttpPusherData where
  url : String
  format : Option PushFormat
  default_payload : Option String
  deriving DecidableEq, Repr

/-- `ruma::api::client::push::PusherKind`: HTTP gateway, email, or any
other (unrecognized) kind, with opaque data. -/
inductive PusherKind where
  | http (data : HttpPusherData)
  | email (data : String)
  | other (kind : String) (data : String)
  deriving DecidableEq, Repr

/-- Pusher identity: app id and push key. -/
structure PusherIds where
  app_id : String
  pushkey : String
  deriving DecidableEq, Repr

/-- A registered pusher (`ruma::api::client::push::Pusher`). -/
structure Pusher where
  ids : PusherIds
  kind : PusherKind
  deriving DecidableEq, Repr

/-- The event-kind values `send_notice` discriminates on
(`ruma::events::TimelineEventType`); every other kind is `other`. -/
inductive TimelineEventType where
  | roomEncrypted
  | roomMember
  | other (name : String)
  deriving DecidableEq, Repr

/-- Read-only view of a `PduEvent` with the fields the pusher code reads.
`content` is the raw JSON content, opaque here. -/
structure PduEvent where
  event_id : String
  room_id : String
  sender : String
  kind : TimelineEventType
  content : String
  state_key : Option String
  deriving DecidableEq, Repr

/-- `NotificationPriority` of the push-gateway API. -/
inductive NotificationPriority where
  | low
  | high
  deriving DecidableEq, Repr

/-- Per-device pusher data carried inside the outgoing notification. -/
structure PusherData where
  default_payload : Option String
  format : Option PushFormat
  deriving DecidableEq, Repr

/-- `Device` of `send_event_notification::v1`. -/
structure Device where
  app_id : String
  pushkey : String
  data : PusherData
  tweaks : List Tweak
  deriving DecidableEq, Repr

/-- `Device::new(app_id, pushkey)`: defaulted data and no tweaks. -/
def Device.new (app_id pushkey : String) : Device :=
  { app_id := app_id, pushkey := pushkey
    data := { default_payload := none, format := none }
    tweaks := [] }

/-- `NotificationCounts` (unread messages, missed calls). -/
structure NotificationCounts where
  unread : Nat
  missed_calls : Nat
  deriving DecidableEq, Repr

/-- `Notification` of `send_event_notification::v1`, with the fields the
code populates. -/
structure Notification where
  devices : List Device
  prio : NotificationPriority
  event_id : Option String
  room_id : Option String
  counts : NotificationCounts
  sender : Option String
  event_type : Option TimelineEventType
  content : Option String
  user_is_target : Bool
  sender_display_name : Option String
  room_name : Option String
  deriving DecidableEq, Repr

/-- `Notification::new(devices)`: every optional field absent,
`user_is_target` false, priority defaulted low, zero counts. -/
def Notification.new (devices : List Device) : Notification :=
  { devices := devices
    prio := .low
    event_id := none
    room_id := none
    counts := { unread := 0, missed_calls := 0 }
    sender := none
    event_type := none
    content := none
    user_is_target := false
    sender_display_name := none
    room_name := none }

/-- `matches!(t, Tweak::Highlight(true) | Tweak::Sound(_))`. -/
def Tweak.isHighlightTrueOrSound : Tweak → Bool
  | .highlight true => true
  | .sound _ => true
  | _ => false

/-- Outcome of `room_state_get(room, M.RoomName, "")` followed by the
`serde_json::from_str::<RoomNameEventContent>` parse in `send_notice`. -/
inductive RoomNameResult where
  | lookupErr (e : PushError)
  | absent
  | parseFail
  | parsed (name : Option String)
  deriving DecidableEq, Repr

/-- External collaborators consumed by `send_notice`:
the result of serializing the event content (`to_raw_value(..).ok()`),
the sender display-name lookup, the room-name state lookup, and the
outcome of the `send_request` transport call it delegates to. -/
structure NoticeEnv where
  contentRaw : Option String
  senderDisplayname : Except PushError (Option String)
  roomName : RoomNameResult
  transport : Except PushError Unit

/-- One issued gateway request: destination url and notification payload. -/
abbrev SentRequest := String × Notification

/-- `Service::send_notice(unread, pusher, tweaks, event)`.
Returns the trace of issued gateway requests together with the
success-or-error result, mirroring the Rust control flow. -/
def send_notice (env : NoticeEnv) (unread : Nat) (pusher : Pusher)
    (tweaks : List Tweak) (event : PduEvent) :
    List SentRequest × Except PushError Unit :=
  match pusher.kind with
  | .http http =>
    let event_id_only := http.format = some PushFormat.eventIdOnly
    let device : Device :=
      { Device.new pusher.ids.app_id pusher.ids.pushkey with
        data := { default_payload := http.default_payload, format := http.format } }
    -- Tweaks are only added if the format is NOT event_id_only
    let device := if event_id_only then device else { device with tweaks := tweaks }
    let notifi := Notification.new [device]
    let notifi :=
      { notifi with
        prio := .low
        event_id := some event.event_id
        room_id := some event.room_id
        counts := { unread := unread, missed_calls := 0 } }
    let notifi :=
      if event.kind = TimelineEventType.roomEncrypted
          ∨ tweaks.any Tweak.isHighlightTrueOrSound = true then
        { notifi with prio := .high }
      else notifi
    if event_id_only then
      ([(http.url, notifi)], env.transport)
    else
      let notifi :=
        { notifi with
          sender := some event.sender
          event_type := some event.kind
          content := env.contentRaw }
      let notifi :=
        if event.kind = TimelineEventType.roomMember then
          { notifi with user_is_target := decide (event.state_key = some event.sender) }
        else notifi
      match env.senderDisplayname with
      | .error e => ([], .error e)
      | .ok dn =>
        let notifi := { notifi with sender_display_name := dn }
        match env.roomName with
        | .lookupErr e => ([], .error e)
        | .parseFail =>
          ([], .error (.badDatabase "Invalid room name event in database."))
        | .absent =>
          let notifi := { notifi with room_name := none }
          ([(http.url, notifi)], env.transport)
        | .parsed name =>
          let notifi := { notifi with room_name := name }
          ([(http.url, notifi)], env.transport)
  | .email _ => ([], .ok ())
  | .other _ _ => ([], .ok ())

/-- Outcome of the power-levels state lookup and parse at the top of
`send_push_notice`; when the state event is absent the default content is
used, and the parsed value only feeds the external rule evaluator, so
absent and parsed collapse to `ok`. -/
inductive PowerLevelsResult where
  | lookupErr (e : PushError)
  | parseFail
  | ok
  deriving DecidableEq, Repr

/-- External collaborators of `send_push_notice` / `get_actions`:
the power-levels lookup, the acting user's display-name lookup (used to
build the `PushConditionRoomCtx`), the ruleset's evaluated action list
(`Ruleset::get_actions`, an external primitive), and the `NoticeEnv` for
the delegated `send_notice`. -/
structure PushEnv where
  powerLevels : PowerLevelsResult
  userDisplayname : Except PushError (Option String)
  evalActions : List Action
  notice : NoticeEnv

/-- `Service::get_actions`: builds the condition context (propagating a
display-name lookup failure) and delegates matching to the ruleset. -/
def get_actions (env : PushEnv) : Except PushError (List Action) :=
  match env.userDisplayname with
  | .error e => .error e
  | .ok _ => .ok env.evalActions

/-- The message of the malformed-pushrule data-integrity error. -/
def malformedRuleMsg : String :=
  "Malformed pushrule contains more than one of these actions: [\"dont_notify\", \"notify\", \"coalesce\"]"

/-- An action is notify-class when it is `Notify`, `DontNotify` or
`Coalesce` (everything except `SetTweak`). -/
def Action.isNotifyClass : Action → Bool
  | .setTweak _ => false
  | _ => true

/-- Number of notify-class actions in an action list. -/
def notifyClassCount (l : List Action) : Nat :=
  (l.filter Action.isNotifyClass).length

/-- The tweaks accumulated from an action list, in order. -/
def collectTweaks (l : List Action) : List Tweak :=
  l.filterMap fun a => match a with
    | .setTweak t => some t
    | _ => none

/-- The `for action in ...` loop of `send_push_notice`: folds the action
list into at most one notify decision plus accumulated tweaks, erroring
on a second notify-class action. -/
def processActions : List Action → Option Bool → List Tweak →
    Except PushError (Option Bool × List Tweak)
  | [], notify, tweaks => .ok (notify, tweaks)
  | action :: rest, notify, tweaks =>
    match action with
    | .setTweak t => processActions rest notify (tweaks ++ [t])
    | a =>
      let n := a = Action.notify
      if notify.isSome then
        .error (.badDatabase malformedRuleMsg)
      else
        processActions rest (some n) tweaks

/-- `Service::send_push_notice(user, unread, pusher, ruleset, pdu)`:
power-levels lookup, rule evaluation, the one-decision fold, and the
delegated `send_notice` when the decision is notify. Returns the trace
of issued gateway requests with the result. -/
def send_push_notice (env : PushEnv) (unread : Nat) (pusher : Pusher)
    (pdu : PduEvent) : List SentRequest × Except PushError Unit :=
  match env.powerLevels with
  | .lookupErr e => ([], .error e)
  | .parseFail => ([], .error (.badDatabase "invalid m.room.power_levels event"))
  | .ok =>
    match get_actions env with
    | .error e => ([], .error e)
    | .ok actions =>
      match processActions actions none [] with
      | .error e => ([], .error e)
      | .ok (notify, tweaks) =>
        if notify = some true then
          send_notice env.notice unread pusher tweaks pdu
        else
          ([], .ok ())

/-! ### Gateway transport (`send_request`) -/

/-- Fuel-indexed worker for `deleteAll`; every step consumes at least one
character, so fuel equal to the list's length never runs out. -/
def deleteAllAux (pat : List Char) : Nat → List Char → List Char
  | _, [] => []
  | 0, l => l
  | fuel + 1, c :: rest =>
    if pat.isPrefixOf (c :: rest) ∧ pat ≠ [] then
      -- skip the matched occurrence: (c :: rest).drop pat.length
      deleteAllAux pat fuel (rest.drop (pat.length - 1))
    else
      c :: deleteAllAux pat fuel rest

/-- Deletes every occurrence of a nonempty `pat` from the list, leftmost
first and non-overlapping: the semantics of Rust's
`str::replace(pat, "")` (the pattern at the call site is the fixed,
nonempty legacy path, so the empty-pattern edge case never arises). -/
def deleteAll (pat l : List Char) : List Char :=
  deleteAllAux pat l.length l

/-- The legacy path that `send_request` removes from the destination. -/
def legacyPath : String := "/_matrix/push/v1/notify"

/-- `destination.replace("/_matrix/push/v1/notify", "")`: the destination
actually used to build the outgoing request. -/
def normalizeDestination (destination : String) : String :=
  ⟨deleteAll legacyPath.data destination.data⟩

/-- External collaborators of `send_request` for a response type `α`:
`try_into_http_request` on the normalized destination (fails with
`Invalid destination`), the HTTP client execution (transport outcome:
error message, or status code plus body-read result where `none` models
a failed body read), and the typed decoder
`IncomingResponse::try_from_http_response` applied to the translated
response (status and body; bytes modelled as `List Nat`). -/
structure GatewayEnv (α : Type) where
  buildRequest : String → Option Unit
  transport : Except String (Nat × Option (List Nat))
  decode : Nat → List Nat → Option α

/-- `Service::send_request(destination, request)`: normalizes the
destination, builds the wire request, executes it, translates the
response and hands it (whatever its status) to the typed decoder.
The first component is the normalized destination actually used. -/
def send_request {α : Type} (env : GatewayEnv α) (destination : String) :
    String × Except PushError α :=
  let destination := normalizeDestination destination
  (destination,
    match env.buildRequest destination with
    | none => .error (.badServerResponse "Invalid destination")
    | some _ =>
      match env.transport with
      | .error e => .error (.transport e)
      | .ok (status, bodyRead) =>
        -- a failed body read degrades to an empty body
        let body := bodyRead.getD []
        match env.decode status body with
        | some v => .ok v
        | none => .error (.badServerResponse "Push gateway returned bad response."))

/-- Modelled from the spec (C7's reading of "strips a known legacy path
suffix"): remove the legacy string only when it is a trailing suffix of
the destination, leaving the destination otherwise unchanged. Written to
be compared against `normalizeDestination`, which embeds the source. -/
def stripLegacySuffix (destination : String) : String :=
  if legacyPath.data.isSuffixOf destination.data then
    ⟨destination.data.take (destination.data.length - legacyPath.data.length)⟩
  else
    destination

/-! ### Relation tracker (`add_relation`) -/

/-- `Service::add_relation(from, to)` of the pdu_metadata service:
translates both event ids to short ids through the external allocator
(`get_or_create_shorteventid`, fallible), then inserts the edge via the
store. The first component is the trace of edges handed to the store;
the store's own result is propagated. -/
def add_relation (alloc : String → Except PushError Nat)
    (dbAddRelation : Nat → Nat → Except PushError Unit)
    (fromId toId : String) : List (Nat × Nat) × Except PushError Unit :=
  match alloc fromId with
  | .error e => ([], .error e)
  | .ok f =>
    match alloc toId with
    | .error e => ([], .error e)
    | .ok t => ([(f, t)], dbAddRelation f t)

/-! ### Concrete fixtures used by witness theorems -/

/-- A concrete HTTP pusher descriptor in event-id-only format. -/
def httpIdOnly : HttpPusherData :=
  { url := "http://gw", format := some .eventIdOnly, default_payload := none }

/-- A concrete HTTP pusher descriptor in full format. -/
def httpFull : HttpPusherData :=
  { url := "http://gw", format := none, default_payload := some "{}" }

/-- A concrete pusher built over a given kind. -/
def mkPusher (k : PusherKind) : Pusher :=
  { ids := { app_id := "app", pushkey := "key" }, kind := k }

/-- A concrete event. -/
def sampleEvent : PduEvent :=
  { event_id := "$e", room_id := "!r", sender := "@u", kind := .roomMember
    content := "{}", state_key := some "@u" }

/-- A benign notice environment. -/
def okNotice : NoticeEnv :=
  { contentRaw := some "{}", senderDisplayname := .ok (some "U")
    roomName := .parsed (some "Room"), transport := .ok () }

/-! ### Theorems -/

theorem processActions_conflict (l : List Action) :
    ∀ (notify : Option Bool) (tweaks : List Tweak),
      2 ≤ notifyClassCount l + (if notify.isSome then 1 else 0) →
      processActions l notify tweaks = .error (.badDatabase malformedRuleMsg) := by
  induction l with
  | nil =>
    intro notify tweaks h
    cases notify <;> simp [notifyClassCount] at h
  | cons a rest ih =>
    intro notify tweaks h
    cases a with
    | setTweak t =>
      simpa [processActions, notifyClassCount, Action.isNotifyClass] using
        ih notify (tweaks ++ [t])
          (by simpa [notifyClassCount, Action.isNotifyClass] using h)
    | notify =>
      cases notify with
      | some b => simp [processActions]
      | none =>
        simp only [processActions, Option.isSome_none, Bool.false_eq_true, if_false]
        exact ih _ tweaks
          (by simp [notifyClassCount, Action.isNotifyClass] at h ⊢; omega)
    | dontNotify =>
      cases notify with
      | some b => simp [processActions]
      | none =>
        simp only [processActions, Option.isSome_none, Bool.false_eq_true, if_false]
        exact ih _ tweaks
          (by simp [notifyClassCount, Action.isNotifyClass] at h ⊢; omega)
    | coalesce =>
      cases notify with
      | some b => simp [processActions]
      | none =>
        simp only [processActions, Option.isSome_none, Bool.false_eq_true, if_false]
        exact ih _ tweaks
          (by simp [notifyClassCount, Action.isNotifyClass] at h ⊢; omega)

/-- C1: a ruleset whose evaluated action list carries two or more
notify-class actions makes `send_push_notice` fail with the
malformed-pushrule data-integrity error, and no gateway request is
issued; no winner is picked among the conflicting actions. -/
theorem send_push_notice_conflicting_actions
    (env : PushEnv) (unread : Nat) (pusher : Pusher) (pdu : PduEvent)
    (hpl : env.powerLevels = .ok)
    (hdn : ∃ d, env.userDisplayname = .ok d)
    (h2 : 2 ≤ notifyClassCount env.evalActions) :
    send_push_notice env unread pusher pdu =
      ([], .error (.badDatabase malformedRuleMsg)) := by
  obtain ⟨d, hd⟩ := hdn
  have hpa := processActions_conflict env.evalActions none [] (by simpa using h2)
  simp [send_push_notice, hpl, get_actions, hd, hpa]

/-- Witness for C1: two conflicting notify-class actions. -/
theorem send_push_notice_conflicting_actions_witness :
    send_push_notice
      { powerLevels := .ok, userDisplayname := .ok none
        evalActions := [Action.notify, Action.dontNotify], notice := okNotice }
      1 (mkPusher (.http httpFull)) sampleEvent =
      ([], .error (.badDatabase malformedRuleMsg)) :=
  send_push_notice_conflicting_actions _ 1 _ _ rfl ⟨none, rfl⟩ (by decide)

theorem processActions_all_tweaks (l : List Action) :
    ∀ tweaks : List Tweak, notifyClassCount l = 0 →
      processActions l none tweaks = .ok (none, tweaks ++ collectTweaks l) := by
  induction l with
  | nil => intro tweaks _; simp [processActions, collectTweaks]
  | cons a rest ih =>
    intro tweaks h0
    cases a with
    | setTweak t =>
      simpa [processActions, collectTweaks] using
        ih (tweaks ++ [t]) (by simpa [notifyClassCount, Action.isNotifyClass] using h0)
    | notify => simp [notifyClassCount, Action.isNotifyClass] at h0
    | dontNotify => simp [notifyClassCount, Action.isNotifyClass] at h0
    | coalesce => simp [notifyClassCount, Action.isNotifyClass] at h0

/-- C2: a ruleset whose evaluated action list has no notify-class action
(only tweaks or nothing) makes `send_push_notice` return success without
issuing any gateway request. -/
theorem send_push_notice_no_notify_class
    (env : PushEnv) (unread : Nat) (pusher : Pusher) (pdu : PduEvent)
    (hpl : env.powerLevels = .ok)
    (hdn : ∃ d, env.userDisplayname = .ok d)
    (h0 : notifyClassCount env.evalActions = 0) :
    send_push_notice env unread pusher pdu = ([], .ok ()) := by
  obtain ⟨d, hd⟩ := hdn
  have hpa := processActions_all_tweaks env.evalActions [] h0
  simp [send_push_notice, hpl, get_actions, hd, hpa]

/-- Witness for C2: a tweak-only action list. -/
theorem send_push_notice_no_notify_class_witness :
    send_push_notice
      { powerLevels := .ok, userDisplayname := .ok none
        evalActions := [Action.setTweak (.sound "default")], notice := okNotice }
      1 (mkPusher (.http httpFull)) sampleEvent = ([], .ok ()) :=
  send_push_notice_no_notify_class _ 1 _ _ rfl ⟨none, rfl⟩ (by decide)

/-- The notification `send_notice` assembles for an HTTP pusher before the
full-mode enrichment: device record (tweaks only outside event-id-only
mode), priority, event id, room id and counts. -/
def baseNotification (http : HttpPusherData) (pusher : Pusher)
    (tweaks : List Tweak) (event : PduEvent) (unread : Nat) : Notification :=
  { devices :=
      [{ app_id := pusher.ids.app_id, pushkey := pusher.ids.pushkey
         data := { default_payload := http.default_payload, format := http.format }
         tweaks := if http.format = some PushFormat.eventIdOnly then [] else tweaks }]
    prio :=
      if event.kind = TimelineEventType.roomEncrypted
          ∨ tweaks.any Tweak.isHighlightTrueOrSound = true then .high else .low
    event_id := some event.event_id
    room_id := some event.room_id
    counts := { unread := unread, missed_calls := 0 }
    sender := none
    event_type := none
    content := none
    user_is_target := false
    sender_display_name := none
    room_name := none }

/-- The enriched notification of full (non-event-id-only) HTTP mode. -/
def fullNotification (env : NoticeEnv) (http : HttpPusherData) (pusher : Pusher)
    (tweaks : List Tweak) (event : PduEvent) (unread : Nat)
    (dn name : Option String) : Notification :=
  { devices :=
      [{ app_id := pusher.ids.app_id, pushkey := pusher.ids.pushkey
         data := { default_payload := http.default_payload, format := http.format }
         tweaks := if http.format = some PushFormat.eventIdOnly then [] else tweaks }]
    prio :=
      if event.kind = TimelineEventType.roomEncrypted
          ∨ tweaks.any Tweak.isHighlightTrueOrSound = true then .high else .low
    event_id := some event.event_id
    room_id := some event.room_id
    counts := { unread := unread, missed_calls := 0 }
    sender := some event.sender
    event_type := some event.kind
    content := env.contentRaw
    user_is_target :=
      if event.kind = TimelineEventType.roomMember then
        decide (event.state_key = some event.sender)
      else false
    sender_display_name := dn
    room_name := name }

theorem send_notice_http_shape (env : NoticeEnv) (unread : Nat) (pusher : Pusher)
    (tweaks : List Tweak) (event : PduEvent) (http : HttpPusherData)
    (hk : pusher.kind = .http http) :
    send_notice env unread pusher tweaks event =
      if http.format = some PushFormat.eventIdOnly then
        ([(http.url, baseNotification http pusher tweaks event unread)], env.transport)
      else
        match env.senderDisplayname with
        | .error e => ([], .error e)
        | .ok dn =>
          match env.roomName with
          | .lookupErr e => ([], .error e)
          | .parseFail =>
            ([], .error (.badDatabase "Invalid room name event in database."))
          | .absent =>
            ([(http.url, fullNotification env http pusher tweaks event unread dn none)],
              env.transport)
          | .parsed name =>
            ([(http.url, fullNotification env http pusher tweaks event unread dn name)],
              env.transport) := by
  by_cases hfmt : http.format = some PushFormat.eventIdOnly
  · rw [if_pos hfmt]
    simp only [send_notice, hk, if_pos hfmt, baseNotification]
    split <;> rfl
  · rw [if_neg hfmt]
    simp only [send_notice, hk, if_neg hfmt]
    rcases hdn : env.senderDisplayname with e | dn
    · rfl
    · rcases hrn : env.roomName with e | _ | _ | name <;>
        simp only [fullNotification] <;>
        split <;> (try split) <;> rfl

/-- C3: with an HTTP pusher in event-id-only format, the one outgoing
notification carries no tweaks on its device record and identifies the
event only by event id and room id: sender, event type, content, room
name, sender display name and the user-is-target flag are all left
unpopulated, whatever tweaks the rules produced. -/
theorem send_notice_event_id_only_minimal
    (env : NoticeEnv) (unread : Nat) (pusher : Pusher) (tweaks : List Tweak)
    (event : PduEvent) (http : HttpPusherData)
    (hk : pusher.kind = .http http)
    (hfmt : http.format = some PushFormat.eventIdOnly) :
    ∃ n : Notification,
      (send_notice env unread pusher tweaks event).1 = [(http.url, n)] ∧
      (∀ d ∈ n.devices, d.tweaks = []) ∧
      n.event_id = some event.event_id ∧ n.room_id = some event.room_id ∧
      n.sender = none ∧ n.event_type = none ∧ n.content = none ∧
      n.room_name = none ∧ n.sender_display_name = none ∧
      n.user_is_target = false := by
  refine ⟨baseNotification http pusher tweaks event unread, ?_⟩
  rw [send_notice_http_shape env unread pusher tweaks event http hk]
  simp [hfmt, baseNotification]

/-- Witness for C3: event-id-only pusher with a produced tweak. -/
theorem send_notice_event_id_only_minimal_witness :
    ∃ n : Notification,
      (send_notice okNotice 1 (mkPusher (.http httpIdOnly))
          [Tweak.highlight true] sampleEvent).1 = [(httpIdOnly.url, n)] ∧
      (∀ d ∈ n.devices, d.tweaks = []) ∧
      n.event_id = some sampleEvent.event_id ∧
      n.room_id = some sampleEvent.room_id ∧
      n.sender = none ∧ n.event_type = none ∧ n.content = none ∧
      n.room_name = none ∧ n.sender_display_name = none ∧
      n.user_is_target = false :=
  send_notice_event_id_only_minimal okNotice 1 _ _ sampleEvent httpIdOnly rfl rfl

/-- C4: for an HTTP pusher, every outgoing notification has priority High
exactly when the event kind is the encrypted-message kind, or some tweak
is Highlight(true), or some tweak is a Sound tweak; otherwise Low. -/
theorem send_notice_priority_high_iff
    (env : NoticeEnv) (unread : Nat) (pusher : Pusher) (tweaks : List Tweak)
    (event : PduEvent) (http : HttpPusherData)
    (hk : pusher.kind = .http http) :
    ∀ p ∈ (send_notice env unread pusher tweaks event).1,
      p.2.prio = .high ↔
        (event.kind = .roomEncrypted ∨ tweaks.any Tweak.isHighlightTrueOrSound = true) := by
  intro p hp
  rw [send_notice_http_shape env unread pusher tweaks event http hk] at hp
  by_cases hfmt : http.format = some PushFormat.eventIdOnly
  · rw [if_pos hfmt] at hp
    simp only [List.mem_singleton] at hp
    subst hp
    simp only [baseNotification]
    split <;> rename_i h
    · exact iff_of_true rfl h
    · exact iff_of_false (by decide) h
  · rw [if_neg hfmt] at hp
    rcases hdn : env.senderDisplayname with e | dn <;> rw [hdn] at hp
    · simp at hp
    · rcases hrn : env.roomName with e | _ | _ | name <;> rw [hrn] at hp
      all_goals first
        | exact absurd hp (List.not_mem_nil p)
        | (simp only [List.mem_singleton] at hp
           subst hp
           simp only [fullNotification]
           split <;> rename_i h
           · exact iff_of_true rfl h
           · exact iff_of_false (by decide) h)

/-- Witness for C4: an encrypted event yields a High-priority request. -/
theorem send_notice_priority_high_iff_witness :
    (("http://gw",
        fullNotification okNotice httpFull (mkPusher (.http httpFull)) []
          { sampleEvent with kind := .roomEncrypted } 1 (some "U") (some "Room"))
        : SentRequest).2.prio = .high ↔
      ({ sampleEvent with kind := .roomEncrypted }.kind = .roomEncrypted ∨
        ([] : List Tweak).any Tweak.isHighlightTrueOrSound = true) :=
  send_notice_priority_high_iff okNotice 1 (mkPusher (.http httpFull)) []
    { sampleEvent with kind := .roomEncrypted } httpFull rfl
    ("http://gw",
      fullNotification okNotice httpFull (mkPusher (.http httpFull)) []
        { sampleEvent with kind := .roomEncrypted } 1 (some "U") (some "Room"))
    (by decide)

/-- C5: a pusher whose kind is Email or any other non-HTTP kind makes
`send_notice` return success without issuing any gateway request. -/
theorem send_notice_non_http_noop
    (env : NoticeEnv) (unread : Nat) (pusher : Pusher) (tweaks : List Tweak)
    (event : PduEvent)
    (hk : ∀ http : HttpPusherData, pusher.kind ≠ .http http) :
    send_notice env unread pusher tweaks event = ([], .ok ()) := by
  match hkind : pusher.kind with
  | .http h => exact absurd hkind (hk h)
  | .email d => simp [send_notice, hkind]
  | .other k d => simp [send_notice, hkind]

/-- Witness for C5: an email pusher. -/
theorem send_notice_non_http_noop_witness :
    send_notice okNotice 1 (mkPusher (.email "cfg")) [] sampleEvent = ([], .ok ()) :=
  send_notice_non_http_noop okNotice 1 _ [] sampleEvent (by intro h; simp [mkPusher])

/-- C9: in full HTTP mode, every outgoing notification has user-is-target
set exactly when the event is a room-member event whose state key equals
its sender. -/
theorem send_notice_user_is_target_iff
    (env : NoticeEnv) (unread : Nat) (pusher : Pusher) (tweaks : List Tweak)
    (event : PduEvent) (http : HttpPusherData)
    (hk : pusher.kind = .http http)
    (hfmt : http.format ≠ some PushFormat.eventIdOnly) :
    ∀ p ∈ (send_notice env unread pusher tweaks event).1,
      p.2.user_is_target = true ↔
        (event.kind = .roomMember ∧ event.state_key = some event.sender) := by
  intro p hp
  rw [send_notice_http_shape env unread pusher tweaks event http hk] at hp
  rw [if_neg hfmt] at hp
  rcases hdn : env.senderDisplayname with e | dn <;> rw [hdn] at hp
  · simp at hp
  · rcases hrn : env.roomName with e | _ | _ | name <;> rw [hrn] at hp
    all_goals first
      | exact absurd hp (List.not_mem_nil p)
      | (simp only [List.mem_singleton] at hp
         subst hp
         simp only [fullNotification]
         by_cases hm : event.kind = TimelineEventType.roomMember <;> simp [hm])

/-- Witness for C9: a self-membership event under a full-format pusher. -/
theorem send_notice_user_is_target_iff_witness :
    (("http://gw",
        fullNotification okNotice httpFull (mkPusher (.http httpFull)) []
          sampleEvent 1 (some "U") (some "Room")) : SentRequest).2.user_is_target
        = true ↔
      (sampleEvent.kind = .roomMember ∧
        sampleEvent.state_key = some sampleEvent.sender) :=
  send_notice_user_is_target_iff okNotice 1 (mkPusher (.http httpFull)) []
    sampleEvent httpFull rfl (by decide)
    ("http://gw",
      fullNotification okNotice httpFull (mkPusher (.http httpFull)) []
        sampleEvent 1 (some "U") (some "Room"))
    (by decide)

/-- C8: in full HTTP mode, once the sender display-name lookup has
succeeded, a room-name state event whose content fails to parse aborts
the dispatch with a data-integrity error and no request is issued;
whereas a failed serialization of the event content is tolerated: the
content field is simply omitted and the request goes out successfully. -/
theorem send_notice_room_name_fatal_content_tolerated
    (env : NoticeEnv) (unread : Nat) (pusher : Pusher) (tweaks : List Tweak)
    (event : PduEvent) (http : HttpPusherData) (dn : Option String)
    (hk : pusher.kind = .http http)
    (hfmt : http.format ≠ some PushFormat.eventIdOnly)
    (hdn : env.senderDisplayname = .ok dn) :
    (env.roomName = .parseFail →
       send_notice env unread pusher tweaks event =
         ([], .error (.badDatabase "Invalid room name event in database."))) ∧
    (∀ name : Option String, env.contentRaw = none →
       env.roomName = .parsed name → env.transport = .ok () →
       ∃ n : Notification,
         send_notice env unread pusher tweaks event = ([(http.url, n)], .ok ()) ∧
         n.content = none) := by
  constructor
  · intro hrn
    rw [send_notice_http_shape env unread pusher tweaks event http hk,
      if_neg hfmt, hdn, hrn]
  · intro name hcontent hrn htr
    refine ⟨fullNotification env http pusher tweaks event unread dn name, ?_, ?_⟩
    · rw [send_notice_http_shape env unread pusher tweaks event http hk,
        if_neg hfmt, hdn, hrn, htr]
    · simp [fullNotification, hcontent]

/-- Witness for C8: both halves at concrete inputs — a malformed room-name
state event aborts the dispatch, an unserializable content does not. -/
theorem send_notice_room_name_fatal_content_tolerated_witness :
    (send_notice { okNotice with roomName := .parseFail } 1
        (mkPusher (.http httpFull)) [] sampleEvent =
      ([], .error (.badDatabase "Invalid room name event in database."))) ∧
    (∃ n : Notification,
      send_notice { okNotice with contentRaw := none, roomName := .parsed none } 1
          (mkPusher (.http httpFull)) [] sampleEvent =
        ([(httpFull.url, n)], .ok ()) ∧
      n.content = none) :=
  ⟨(send_notice_room_name_fatal_content_tolerated _ 1 _ [] sampleEvent httpFull
      (some "U") rfl (by decide) rfl).1 rfl,
   (send_notice_room_name_fatal_content_tolerated _ 1 _ [] sampleEvent httpFull
      (some "U") rfl (by decide) rfl).2 none rfl rfl rfl⟩

/-- C6: the response handling of `send_request` hands the (possibly
empty-degraded) body to the typed decoder whatever the status code is:
the call succeeds exactly when the decoder accepts the response, and a
decode failure — never the status alone — yields the delivery error. -/
theorem send_request_decode_decides {α : Type} (env : GatewayEnv α)
    (destination : String) (status : Nat) (bodyRead : Option (List Nat))
    (hbuild : env.buildRequest (normalizeDestination destination) = some ())
    (htr : env.transport = .ok (status, bodyRead)) :
    (∀ v : α, env.decode status (bodyRead.getD []) = some v →
       (send_request env destination).2 = .ok v) ∧
    (env.decode status (bodyRead.getD []) = none →
       (send_request env destination).2 =
         .error (.badServerResponse "Push gateway returned bad response.")) := by
  constructor
  · intro v hv
    simp [send_request, hbuild, htr, hv]
  · intro hv
    simp [send_request, hbuild, htr, hv]

/-- A concrete gateway environment whose transport answers status 500
with a body the decoder accepts. -/
def gw500 : GatewayEnv Nat :=
  { buildRequest := fun _ => some ()
    transport := .ok (500, some [7])
    decode := fun _ b => if b = [7] then some 7 else none }

/-- Witness for C6: the status-500 response is decoded successfully. -/
theorem send_request_decode_decides_witness :
    (send_request gw500 "http://gw").2 = .ok 7 :=
  (send_request_decode_decides gw500 "http://gw" 500 (some [7]) rfl rfl).1 7 rfl

/-- A trivial gateway environment used for concrete evaluations. -/
def unitGatewayEnv : GatewayEnv Unit :=
  { buildRequest := fun _ => some ()
    transport := .ok (200, some [])
    decode := fun _ _ => some () }

/-- Counterexample to C7: the code removes every occurrence of the legacy
string (Rust `str::replace` semantics), not only a trailing suffix. On a
destination where the legacy string occurs in the middle, the destination
actually used differs from the input with the suffix removed and
otherwise unchanged. -/
theorem send_request_strip_suffix_counterexample :
    (send_request unitGatewayEnv "/_matrix/push/v1/notify/x").1 = "/x" ∧
    stripLegacySuffix "/_matrix/push/v1/notify/x" = "/_matrix/push/v1/notify/x" ∧
    (send_request unitGatewayEnv "/_matrix/push/v1/notify/x").1 ≠
      stripLegacySuffix "/_matrix/push/v1/notify/x" := by
  refine ⟨by decide, by decide, by decide⟩

theorem deleteAllAux_no_occurrence (pat : List Char) :
    ∀ (fuel : Nat) (l : List Char), ¬ pat <:+: l →
      deleteAllAux pat fuel l = l := by
  intro fuel
  induction fuel with
  | zero => intro l _; cases l <;> rfl
  | succ n ih =>
    intro l hocc
    cases l with
    | nil => rfl
    | cons c rest =>
      have hpre : ¬ (pat.isPrefixOf (c :: rest) ∧ pat ≠ []) := by
        rintro ⟨hp, -⟩
        exact hocc (List.isPrefixOf_iff_prefix.mp hp).isInfix
      rw [deleteAllAux, if_neg hpre]
      have : ¬ pat <:+: rest := fun h => hocc (h.trans (List.suffix_cons c rest).isInfix)
      rw [ih rest this]

/-- C7 (amended): `send_request` uses the destination with every
occurrence of "/_matrix/push/v1/notify" removed, leftmost first (Rust
`str::replace` semantics) — not merely a trailing suffix; in particular a
destination in which the legacy string does not occur is used unchanged. -/
theorem send_request_destination_normalized {α : Type} (env : GatewayEnv α)
    (destination : String) :
    (send_request env destination).1 =
      String.mk (deleteAll legacyPath.data destination.data) ∧
    (¬ legacyPath.data <:+: destination.data →
      (send_request env destination).1 = destination) := by
  constructor
  · rfl
  · intro hocc
    show normalizeDestination destination = destination
    unfold normalizeDestination deleteAll
    rw [deleteAllAux_no_occurrence legacyPath.data destination.data.length
      destination.data hocc]

/-- Witness for C7's amended claim: a destination without the legacy
string is used unchanged. -/
theorem send_request_destination_normalized_witness :
    (send_request unitGatewayEnv "http://gw/push").1 =
      String.mk (deleteAll legacyPath.data "http://gw/push".data) ∧
    (send_request unitGatewayEnv "http://gw/push").1 = "http://gw/push" :=
  ⟨(send_request_destination_normalized unitGatewayEnv "http://gw/push").1,
   (send_request_destination_normalized unitGatewayEnv "http://gw/push").2 (by decide)⟩

/-- C10: `add_relation` first translates both event ids through the
allocator, in order; a failure on either endpoint is returned unchanged
and nothing reaches the relation store, and only after both allocations
succeed is the single edge handed to the store. -/
theorem add_relation_allocates_before_insert
    (alloc : String → Except PushError Nat)
    (dbAddRelation : Nat → Nat → Except PushError Unit)
    (fromId toId : String) :
    (∀ e, alloc fromId = .error e →
       add_relation alloc dbAddRelation fromId toId = ([], .error e)) ∧
    (∀ f e, alloc fromId = .ok f → alloc toId = .error e →
       add_relation alloc dbAddRelation fromId toId = ([], .error e)) ∧
    (∀ f t, alloc fromId = .ok f → alloc toId = .ok t →
       add_relation alloc dbAddRelation fromId toId =
         ([(f, t)], dbAddRelation f t)) := by
  refine ⟨fun e he => ?_, fun f e hf he => ?_, fun f t hf ht => ?_⟩
  · simp [add_relation, he]
  · simp [add_relation, hf, he]
  · simp [add_relation, hf, ht]

/-- Witness for C10: an allocator that fails on the second endpoint. -/
theorem add_relation_allocates_before_insert_witness :
    add_relation
      (fun s => if s = "$a" then .ok 1 else .error (.badDatabase "alloc"))
      (fun _ _ => .ok ()) "$a" "$b" = ([], .error (.badDatabase "alloc")) :=
  (add_relation_allocates_before_insert
      (fun s => if s = "$a" then .ok 1 else .error (.badDatabase "alloc"))
      (fun _ _ => .ok ()) "$a" "$b").2.1 1 (.badDatabase "alloc") rfl rfl

end Conduit
